import Mathlib

/-!
Shallow embedding of the `logx` package (src/logx/logx_v2.go): a process-local
asynchronous logger with level filtering, a FIFO queue drained by a single
background worker, size-triggered file rotation, and a drain-on-close shutdown.

The filesystem is modelled explicitly: files carry a stable identity `fid`, a
current `path` and their written `lines`; handles (`hid`) point at a file and
may be closed.  Outcomes of fallible OS calls (`os.MkdirAll`, `os.Rename`,
`os.OpenFile`) are supplied by an oracle (`RotateOutcome`), one per `rotate`
call; a write through a closed handle fails, as in Go.  The single consumer is
modelled by running the dispatch loop sequentially over the queued entries.
-/

namespace Logx

/-- Go `type LogLevel int`; the constants below come from the `iota` block. -/
abbrev LogLevel := Int

def DEBUG : LogLevel := 0
def INFO : LogLevel := 1
def WARN : LogLevel := 2
def ERROR : LogLevel := 3

/-- Go `levelColors` map; a lookup of a key that is absent yields the zero
value `""`, exactly as a Go map read does. -/
def levelColors (level : LogLevel) : String :=
  if level = DEBUG then "\x1b[36m"
  else if level = INFO then "\x1b[32m"
  else if level = WARN then "\x1b[33m"
  else if level = ERROR then "\x1b[31m"
  else ""

def resetColor : String := "\x1b[0m"

/-- Go `levelString`: switch with a `default: return "UNKNOWN"` arm. -/
def levelString (level : LogLevel) : String :=
  if level = DEBUG then "DEBUG"
  else if level = INFO then "INFO"
  else if level = WARN then "WARN"
  else if level = ERROR then "ERROR"
  else "UNKNOWN"

/-- Go `logEntry{level, msg, time}`; the timestamp is an opaque tick. -/
structure logEntry where
  level : LogLevel
  msg : String
  time : Nat
deriving DecidableEq, Repr

/-- An `*os.File` handle: an identity plus the file it points at. -/
structure Handle where
  hid : Nat
  fid : Nat
deriving DecidableEq, Repr

/-- A file on disk: stable identity, current path, written lines. -/
structure FsFile where
  fid : Nat
  path : String
  lines : List String
deriving DecidableEq, Repr

/-- The filesystem: an id supply, the files, and the set of closed handles. -/
structure Fs where
  nextId : Nat
  files : List FsFile
  closedHandles : List Nat
deriving DecidableEq, Repr

/-- `os.Stat` / path resolution: the file currently at path `p`, if any. -/
def Fs.lookup (fs : Fs) (p : String) : Option FsFile :=
  fs.files.find? (fun f => f.path = p)

/-- `os.Rename src dst`: the file at `src` is now reachable at `dst`; open
handles keep pointing at the same file, as on POSIX. -/
def Fs.rename (fs : Fs) (src dst : String) : Fs :=
  { fs with files := fs.files.map (fun f => if f.path = src then { f with path := dst } else f) }

/-- `handle.Close()`: the handle is dead; the file itself stays. -/
def Fs.closeHandle (fs : Fs) (h : Handle) : Fs :=
  { fs with closedHandles := h.hid :: fs.closedHandles }

/-- `os.OpenFile(p, O_CREATE|O_WRONLY|O_APPEND, 0644)` on success: opens the
file at `p` if one exists, otherwise creates a fresh empty file there; either
way a fresh handle is returned. -/
def Fs.openFile (fs : Fs) (p : String) : Fs × Handle :=
  match fs.lookup p with
  | some f => ({ fs with nextId := fs.nextId + 1 }, ⟨fs.nextId, f.fid⟩)
  | none =>
      ({ fs with
          nextId := fs.nextId + 2,
          files := fs.files ++ [⟨fs.nextId, p, []⟩] },
       ⟨fs.nextId + 1, fs.nextId⟩)

/-- Appends a line to the file with identity `fid`. -/
def Fs.appendLine (fs : Fs) (fid : Nat) (line : String) : Fs :=
  { fs with files := fs.files.map (fun f => if f.fid = fid then { f with lines := f.lines ++ [line] } else f) }

/-- A write through a handle: fails iff the handle has been closed; on success
the line lands in the file the handle points at. -/
def Fs.writeLine (fs : Fs) (h : Handle) (line : String) : Fs × Bool :=
  if fs.closedHandles.contains h.hid then (fs, false)
  else (fs.appendLine h.fid line, true)

/-- Go `Logger` struct.  `workerStarted` models the `sync.WaitGroup` /
background goroutine state set up by `StartWorker`; `logChan` is the buffered
channel's current contents, oldest first. -/
structure Logger where
  level : LogLevel
  consoleOut : Bool
  maxSize : Int
  filePath : String
  currentSize : Int
  file : Option Handle
  fileWriter : Option Handle
  logChan : List logEntry
  workerStarted : Bool
deriving DecidableEq, Repr

/-- Oracle for the fallible OS calls inside one `rotate` call.  `mkdirErr` is
listed for completeness: Go discards `os.MkdirAll`'s error, and a missing
directory only surfaces through the final open, captured by `openErr`. -/
structure RotateOutcome where
  mkdirErr : Bool
  renameErr : Bool
  openErr : Bool
deriving DecidableEq, Repr

structure RotateResult where
  logger : Logger
  fs : Fs
  err : Option String
deriving DecidableEq, Repr

/-- Go `(l *Logger) rotate() error`, line by line:
close the current file if any; `os.MkdirAll` (error discarded); compute the
retirement name `<path>.<timestamp>.log`; if a file exists at the configured
path, try to rename it there (error discarded); finally open the configured
path, and only this open's failure is returned.  On success the new handle is
installed as `file` and `fileWriter` and the byte counter is reset. -/
def rotate (l : Logger) (fs : Fs) (timestamp : String) (oc : RotateOutcome) : RotateResult :=
  let fs1 := match l.file with
    | some h => fs.closeHandle h
    | none => fs
  let newPath := l.filePath ++ "." ++ timestamp ++ ".log"
  let fs2 := if (fs1.lookup l.filePath).isSome && !oc.renameErr
             then fs1.rename l.filePath newPath else fs1
  if oc.openErr then
    ⟨l, fs2, some "open error"⟩
  else
    let p := fs2.openFile l.filePath
    ⟨{ l with file := some p.2, fileWriter := some p.2, currentSize := 0 }, p.1, none⟩

/-- Go `SetLevel`. -/
def SetLevel (l : Logger) (level : LogLevel) : Logger :=
  { l with level := level }

/-- Go `(l *Logger) log(level, msg)`: drop below the threshold, otherwise
enqueue `logEntry{level, msg, time.Now()}`. -/
def log (l : Logger) (level : LogLevel) (msg : String) (now : Nat) : Logger :=
  if level < l.level then l
  else { l with logChan := l.logChan ++ [⟨level, msg, now⟩] }

def Debug (l : Logger) (msg : String) (now : Nat) : Logger := log l DEBUG msg now
def Info (l : Logger) (msg : String) (now : Nat) : Logger := log l INFO msg now
def Warn (l : Logger) (msg : String) (now : Nat) : Logger := log l WARN msg now
def Error (l : Logger) (msg : String) (now : Nat) : Logger := log l ERROR msg now

/-- Go `StartWorker`: `wg.Add(1)` plus the consumer goroutine. -/
def StartWorker (l : Logger) : Logger :=
  { l with workerStarted := true }

/-- Observable output of dispatching: console lines, stderr diagnostics, the
file-write attempts `(line, succeeded)` in order, and the rotation attempts
(`true` = the re-open succeeded). -/
structure Output where
  console : List String
  stderr : List String
  fileWrites : List (String × Bool)
  rotations : List Bool
deriving DecidableEq, Repr

def Output.empty : Output := ⟨[], [], [], []⟩

def Output.app (a b : Output) : Output :=
  ⟨a.console ++ b.console, a.stderr ++ b.stderr,
   a.fileWrites ++ b.fileWrites, a.rotations ++ b.rotations⟩

/-- Ambient data for one `write` call: the datetime stamp the `log.Logger`
writer prepends at write time, and the timestamp/outcomes of a rotation should
this write trigger one. -/
structure WriteCtx where
  now : String
  rotTimestamp : String
  rotOutcome : RotateOutcome
deriving DecidableEq, Repr

def defaultCtx : WriteCtx := ⟨"", "", ⟨false, false, false⟩⟩

structure WriteResult where
  logger : Logger
  fs : Fs
  out : Output
deriving DecidableEq, Repr

/-- Go `(l *Logger) write(entry)`, line by line: render `"[LEVEL] msg"`;
echo a colorized copy to the console when enabled; write the line (with the
writer's datetime stamp) through `fileWriter`, reporting a failure to stderr;
unconditionally add `len(formatted)+1` to `currentSize`; if the counter now
meets `maxSize`, call `rotate`, discarding its error (`_ = l.rotate()`). -/
def write (l : Logger) (fs : Fs) (entry : logEntry) (ctx : WriteCtx) : WriteResult :=
  let formatted := "[" ++ levelString entry.level ++ "] " ++ entry.msg
  let console := if l.consoleOut
                 then [levelColors entry.level ++ formatted ++ resetColor] else []
  let wr := match l.fileWriter with
    | some h => fs.writeLine h (ctx.now ++ formatted)
    | none => (fs, false)
  let errs := if wr.2 then [] else ["log write error"]
  let l1 := { l with currentSize := l.currentSize + ((formatted.utf8ByteSize : Int) + 1) }
  if l1.currentSize ≥ l1.maxSize then
    let r := rotate l1 wr.1 ctx.rotTimestamp ctx.rotOutcome
    ⟨r.logger, r.fs, ⟨console, errs, [(ctx.now ++ formatted, wr.2)], [r.err.isNone]⟩⟩
  else
    ⟨l1, wr.1, ⟨console, errs, [(ctx.now ++ formatted, wr.2)], []⟩⟩

/-- The consumer loop `for entry := range l.logChan { l.write(entry) }`,
run over the queued entries in FIFO order; `ctxs` supplies the ambient data
of each write, first entry first. -/
def drainQueue : Logger → Fs → List logEntry → List WriteCtx → WriteResult
  | l, fs, [], _ => ⟨l, fs, Output.empty⟩
  | l, fs, e :: es, ctxs =>
      let r1 := write l fs e (ctxs.headD defaultCtx)
      let r2 := drainQueue r1.logger r1.fs es ctxs.tail
      ⟨r2.logger, r2.fs, r1.out.app r2.out⟩

/-- Go `Close`: `close(l.logChan)` then `l.wg.Wait()` — when the worker is
running, the wait returns only after the consumer has drained the channel and
exited; when the worker was never started, the wait is a no-op and the queued
entries are never written.  Finally the active file handle is closed. -/
def Close (l : Logger) (fs : Fs) (ctxs : List WriteCtx) : WriteResult :=
  let r := if l.workerStarted then
      let r0 := drainQueue l fs l.logChan ctxs
      ⟨{ r0.logger with logChan := [] }, r0.fs, r0.out⟩
    else (⟨l, fs, Output.empty⟩ : WriteResult)
  let fs2 := match r.logger.file with
    | some h => r.fs.closeHandle h
    | none => r.fs
  ⟨r.logger, fs2, r.out⟩

/-- Go `NewLogger`: builds the struct (threshold converted to bytes, channel
empty) and performs one rotation; a rotation error is fatal to construction. -/
def NewLogger (filePath : String) (level : LogLevel) (maxSizeMB : Int)
    (consoleOut : Bool) (fs : Fs) (timestamp : String) (oc : RotateOutcome) :
    Option (Logger × Fs) :=
  let l : Logger :=
    { level := level, consoleOut := consoleOut, maxSize := maxSizeMB * 1024 * 1024,
      filePath := filePath, currentSize := 0, file := none, fileWriter := none,
      logChan := [], workerStarted := false }
  let r := rotate l fs timestamp oc
  match r.err with
  | some _ => none
  | none => some (r.logger, r.fs)

/-! ### Helper lemmas about one dispatch step -/

/-- Rendered line of an entry, as `write` computes it. -/
def renderLine (e : logEntry) : String :=
  "[" ++ levelString e.level ++ "] " ++ e.msg

/-- Whether the file write of the next dispatched entry will succeed:
there is a writer and its handle is still open. -/
def writeOk (l : Logger) (fs : Fs) : Bool :=
  match l.fileWriter with
  | some h => !fs.closedHandles.contains h.hid
  | none => false

theorem write_out_eq (l : Logger) (fs : Fs) (e : logEntry) (ctx : WriteCtx) :
    (write l fs e ctx).out.fileWrites = [(ctx.now ++ renderLine e, writeOk l fs)] ∧
    (write l fs e ctx).out.stderr = (if writeOk l fs then [] else ["log write error"]) ∧
    (write l fs e ctx).out.console =
      (if l.consoleOut then [levelColors e.level ++ renderLine e ++ resetColor] else []) := by
  obtain ⟨lv, co, ms, fp, cs, fl, fw, ch, ws⟩ := l
  simp only [write, renderLine, writeOk, Fs.writeLine]
  cases fw with
  | none => split <;> simp
  | some h =>
      by_cases hc : fs.closedHandles.contains h.hid <;>
        simp only [hc, if_true, if_false, Bool.not_true, Bool.not_false] <;>
        split <;> simp

theorem write_below_threshold (l : Logger) (fs : Fs) (e : logEntry) (ctx : WriteCtx)
    (hlt : l.currentSize + ((renderLine e).utf8ByteSize + 1) < l.maxSize) :
    (write l fs e ctx).logger =
      { l with currentSize := l.currentSize + ((renderLine e).utf8ByteSize + 1) } ∧
    (write l fs e ctx).out.rotations = [] := by
  simp only [renderLine] at hlt
  simp only [write]
  split
  · omega
  · exact ⟨rfl, rfl⟩

theorem drainQueue_length (es : List logEntry) : ∀ (l : Logger) (fs : Fs) (ctxs : List WriteCtx),
    (drainQueue l fs es ctxs).out.fileWrites.length = es.length := by
  induction es with
  | nil => intro l fs ctxs; rfl
  | cons e es ih =>
      intro l fs ctxs
      simp only [drainQueue, Output.app, List.length_append, List.length_cons,
        List.length_nil, (write_out_eq l fs e (ctxs.headD defaultCtx)).1, ih]
      omega

theorem Close_writes_all (l : Logger) (fs : Fs) (ctxs : List WriteCtx)
    (hw : l.workerStarted = true) :
    (Close l fs ctxs).out.fileWrites.length = l.logChan.length := by
  simp [Close, hw, drainQueue_length]

/-! ### Concrete states used by witnesses and counterexamples -/

def hBase : Handle := ⟨1, 0⟩

/-- A freshly constructed logger state: one empty file at the target path,
one open handle on it. -/
def fsBase : Fs := ⟨2, [⟨0, "app.log", []⟩], []⟩

def lBase : Logger :=
  ⟨INFO, false, 1000000, "app.log", 0, some hBase, some hBase, [], true⟩

/-- Same logger, but the writer's handle has been closed (the state left
behind by a failed in-dispatch rotation). -/
def fsClosed : Fs := ⟨2, [⟨0, "app.log", []⟩], [1]⟩

/-! ### Claims -/

/-- C1: `log` drops a message strictly below the threshold with no state
change at all, and otherwise appends exactly one entry to the queue, which a
started worker persists on `Close` (one file-write attempt per accepted
entry); the four public wrappers are `log` at the fixed severities. -/
theorem c1_level_filtering (l : Logger) (s : LogLevel) (msg : String) (now : Nat) :
    (s < l.level → log l s msg now = l) ∧
    (l.level ≤ s →
      log l s msg now = { l with logChan := l.logChan ++ [⟨s, msg, now⟩] } ∧
      (l.workerStarted = true → ∀ (fs : Fs) (ctxs : List WriteCtx),
        (Close (log l s msg now) fs ctxs).out.fileWrites.length = l.logChan.length + 1)) ∧
    Debug l msg now = log l DEBUG msg now ∧
    Info l msg now = log l INFO msg now ∧
    Warn l msg now = log l WARN msg now ∧
    Error l msg now = log l ERROR msg now := by
  refine ⟨fun h => by simp [log, h], fun h => ⟨by simp [log, not_lt.2 h], ?_⟩, rfl, rfl, rfl, rfl⟩
  intro hw fs ctxs
  have hlog : log l s msg now = { l with logChan := l.logChan ++ [⟨s, msg, now⟩] } := by
    simp [log, not_lt.2 h]
  rw [hlog, Close_writes_all { l with logChan := l.logChan ++ [⟨s, msg, now⟩] } fs ctxs hw]
  simp

theorem c1_level_filtering_witness :
    log lBase DEBUG "dropped" 0 = lBase ∧
    (Close (log lBase INFO "kept" 0) fsBase []).out.fileWrites.length = 1 := by
  refine ⟨(c1_level_filtering lBase DEBUG "dropped" 0).1 (by decide), ?_⟩
  have h := ((c1_level_filtering lBase INFO "kept" 0).2.1 (by decide)).2 rfl fsBase []
  simpa using h

/-- C7: the line handed to the file writer for an entry is the writer's
datetime stamp followed by `"[" ++ levelString level ++ "] " ++ msg`, and
`levelString` maps the four named severities to their names and every other
value to `"UNKNOWN"` without failing. -/
theorem c7_rendering (l : Logger) (fs : Fs) (e : logEntry) (ctx : WriteCtx) :
    (write l fs e ctx).out.fileWrites.map Prod.fst =
      [ctx.now ++ ("[" ++ levelString e.level ++ "] " ++ e.msg)] ∧
    levelString DEBUG = "DEBUG" ∧ levelString INFO = "INFO" ∧
    levelString WARN = "WARN" ∧ levelString ERROR = "ERROR" ∧
    (∀ s : LogLevel, s ≠ DEBUG → s ≠ INFO → s ≠ WARN → s ≠ ERROR →
      levelString s = "UNKNOWN") := by
  refine ⟨?_, rfl, rfl, rfl, rfl, fun s h1 h2 h3 h4 => ?_⟩
  · rw [(write_out_eq l fs e ctx).1]
    simp [renderLine]
  · simp [levelString, h1, h2, h3, h4]

theorem c7_rendering_witness :
    (write lBase fsBase ⟨7, "x", 0⟩ defaultCtx).out.fileWrites.map Prod.fst =
      ["[UNKNOWN] x"] ∧ levelString 7 = "UNKNOWN" := by
  have h := c7_rendering lBase fsBase ⟨7, "x", 0⟩ defaultCtx
  have h7 := h.2.2.2.2.2 7 (by decide) (by decide) (by decide) (by decide)
  refine ⟨?_, h7⟩
  rw [h.1, h7]
  decide

/-- C10: dispatching reads only the entry's severity and message; two entries
that differ only in their stored creation timestamp produce identical results
(same file line, same console echo, same diagnostics, same final state). -/
theorem c10_timestamp_noninterference (l : Logger) (fs : Fs) (ctx : WriteCtx)
    (lv : LogLevel) (msg : String) (t1 t2 : Nat) :
    write l fs ⟨lv, msg, t1⟩ ctx = write l fs ⟨lv, msg, t2⟩ ctx := rfl

/-- C10 witness at a concrete input (timestamps 3 and 42). -/
theorem c10_timestamp_noninterference_witness :
    write lBase fsBase ⟨INFO, "m", 3⟩ defaultCtx =
      write lBase fsBase ⟨INFO, "m", 42⟩ defaultCtx :=
  c10_timestamp_noninterference lBase fsBase defaultCtx INFO "m" 3 42

/-- C4 counterexample: with the writer's handle closed, the file write fails
and is reported, yet `currentSize` still grows by `len("[INFO] hi") + 1 = 10`;
the claim says a failed write leaves the counter unchanged. -/
theorem c4_counterexample :
    (write { lBase with fileWriter := some hBase } fsClosed ⟨INFO, "hi", 0⟩ defaultCtx).out.stderr =
      ["log write error"] ∧
    (write { lBase with fileWriter := some hBase } fsClosed ⟨INFO, "hi", 0⟩ defaultCtx).logger.currentSize = 10 ∧
    lBase.currentSize = 0 := by decide

/-- C4 amended: the rotation byte counter grows by the rendered line's byte
length plus one on every dispatched entry, whether or not the file write
succeeded (below the rotation threshold the sum is the final counter value). -/
theorem c4_counter_unconditional (l : Logger) (fs : Fs) (e : logEntry) (ctx : WriteCtx)
    (hlt : l.currentSize + ((renderLine e).utf8ByteSize + 1) < l.maxSize) :
    (write l fs e ctx).logger.currentSize =
      l.currentSize + ((renderLine e).utf8ByteSize + 1) := by
  rw [(write_below_threshold l fs e ctx hlt).1]

/-- C4 amended witness: the increment happens even for a failed write. -/
theorem c4_counter_unconditional_witness :
    (write { lBase with fileWriter := some hBase } fsClosed ⟨INFO, "hi", 0⟩ defaultCtx).logger.currentSize =
      10 :=
  c4_counter_unconditional { lBase with fileWriter := some hBase } fsClosed ⟨INFO, "hi", 0⟩
    defaultCtx (by decide)

theorem openFile_spec (fs : Fs) (p : String) :
    ∃ f, (fs.openFile p).1.lookup p = some f ∧ f.fid = (fs.openFile p).2.fid := by
  unfold Fs.openFile
  cases hlk : fs.lookup p with
  | some f => exact ⟨f, hlk, rfl⟩
  | none =>
      refine ⟨⟨fs.nextId, p, []⟩, ?_, rfl⟩
      unfold Fs.lookup at hlk ⊢
      simp [List.find?_append, hlk]

/-- C6: `rotate` returns an error iff the final open of the configured path
fails; with the open succeeding, a directory-creation or rename failure never
fails `rotate`, which still installs a fresh open handle whose file sits at
the configured path and resets the byte counter. -/
theorem c6_rotate_error_iff_open (l : Logger) (fs : Fs) (ts : String) (oc : RotateOutcome) :
    ((rotate l fs ts oc).err.isSome = true ↔ oc.openErr = true) ∧
    (oc.openErr = false →
      ∃ h, (rotate l fs ts oc).logger.file = some h ∧
        (rotate l fs ts oc).logger.fileWriter = some h ∧
        (rotate l fs ts oc).logger.currentSize = 0 ∧
        ∃ f, (rotate l fs ts oc).fs.lookup l.filePath = some f ∧ f.fid = h.fid) := by
  cases hoc : oc.openErr with
  | true => simp [rotate, hoc]
  | false =>
      constructor
      · simp [rotate, hoc]
      · intro _
        simp only [rotate, hoc, Bool.false_eq_true, if_false]
        exact ⟨_, rfl, rfl, by trivial, openFile_spec _ _⟩

/-- C6 witness: with directory creation and rename both failing but the open
succeeding, rotation reports no error and the counter is reset. -/
theorem c6_rotate_error_iff_open_witness :
    ¬ (rotate lBase fsBase "ts" ⟨true, true, false⟩).err.isSome = true ∧
    (rotate lBase fsBase "ts" ⟨true, true, false⟩).logger.currentSize = 0 := by
  have h := c6_rotate_error_iff_open lBase fsBase "ts" ⟨true, true, false⟩
  obtain ⟨hh, h1, h2, h3, -⟩ := h.2 rfl
  exact ⟨fun hs => by simpa using h.1.mp hs, h3⟩

/-- C9: with the worker never started, `Close` returns without draining: no
write, no console echo, no diagnostic, file contents untouched, the queued
entries left unwritten in the queue, and the active handle closed. -/
theorem c9_close_without_worker (l : Logger) (fs : Fs) (ctxs : List WriteCtx)
    (hw : l.workerStarted = false) :
    (Close l fs ctxs).out = Output.empty ∧
    (Close l fs ctxs).fs.files = fs.files ∧
    (Close l fs ctxs).logger = l ∧
    (∀ h, l.file = some h → (Close l fs ctxs).fs.closedHandles = h.hid :: fs.closedHandles) ∧
    (l.file = none → (Close l fs ctxs).fs = fs) := by
  obtain ⟨lv, co, ms, fp, cs, fl, fw, ch, ws⟩ := l
  simp only at hw
  subst hw
  cases fl with
  | none => simp [Close, Fs.closeHandle]
  | some h => simp [Close, Fs.closeHandle]

/-- C9 witness: one entry sits in the queue, the worker is not running, and
`Close` discards it while closing the handle. -/
theorem c9_close_without_worker_witness :
    (Close { lBase with workerStarted := false, logChan := [⟨INFO, "m", 0⟩] } fsBase []).out =
      Output.empty ∧
    (Close { lBase with workerStarted := false, logChan := [⟨INFO, "m", 0⟩] } fsBase []).logger =
      { lBase with workerStarted := false, logChan := [⟨INFO, "m", 0⟩] } ∧
    (Close { lBase with workerStarted := false, logChan := [⟨INFO, "m", 0⟩] } fsBase []).fs.closedHandles =
      [hBase.hid] := by
  have h := c9_close_without_worker
    { lBase with workerStarted := false, logChan := [⟨INFO, "m", 0⟩] } fsBase [] rfl
  exact ⟨h.1, h.2.2.1, h.2.2.2.1 hBase rfl⟩

/-! ### Filesystem evolution: no operation deletes a file or removes a line -/

/-- `fs2` extends `fs1`: every file of `fs1` survives in `fs2` with the same
identity and at least its old lines. -/
def Fs.Extends (fs2 fs1 : Fs) : Prop :=
  ∀ f, f ∈ fs1.files → ∃ f2, f2 ∈ fs2.files ∧ f2.fid = f.fid ∧ ∀ s, s ∈ f.lines → s ∈ f2.lines

theorem extends_refl (fs : Fs) : fs.Extends fs :=
  fun f hf => ⟨f, hf, rfl, fun _ hs => hs⟩

theorem extends_trans {fs3 fs2 fs1 : Fs} (h32 : fs3.Extends fs2) (h21 : fs2.Extends fs1) :
    fs3.Extends fs1 := by
  intro f hf
  obtain ⟨f2, hf2, hfid2, hl2⟩ := h21 f hf
  obtain ⟨f3, hf3, hfid3, hl3⟩ := h32 f2 hf2
  exact ⟨f3, hf3, hfid3.trans hfid2, fun s hs => hl3 s (hl2 s hs)⟩

theorem extends_closeHandle (fs : Fs) (h : Handle) : (fs.closeHandle h).Extends fs :=
  fun f hf => ⟨f, hf, rfl, fun _ hs => hs⟩

theorem extends_rename (fs : Fs) (src dst : String) : (fs.rename src dst).Extends fs := by
  intro f hf
  refine ⟨if f.path = src then { f with path := dst } else f, List.mem_map_of_mem _ hf, ?_, ?_⟩
  · split <;> rfl
  · split <;> exact fun _ hs => hs

theorem extends_appendLine (fs : Fs) (fid : Nat) (line : String) :
    (fs.appendLine fid line).Extends fs := by
  intro f hf
  refine ⟨if f.fid = fid then { f with lines := f.lines ++ [line] } else f,
    List.mem_map_of_mem _ hf, ?_, ?_⟩
  · split <;> rfl
  · split
    · exact fun s hs => List.mem_append_left _ hs
    · exact fun _ hs => hs

theorem extends_openFile (fs : Fs) (p : String) : (fs.openFile p).1.Extends fs := by
  unfold Fs.openFile
  cases hlk : fs.lookup p with
  | some f => exact fun g hg => ⟨g, hg, rfl, fun _ hs => hs⟩
  | none => exact fun g hg => ⟨g, List.mem_append_left _ hg, rfl, fun _ hs => hs⟩

theorem extends_writeLine (fs : Fs) (h : Handle) (line : String) :
    (fs.writeLine h line).1.Extends fs := by
  unfold Fs.writeLine
  split
  · exact extends_refl fs
  · exact extends_appendLine fs h.fid line

theorem extends_rotate (l : Logger) (fs : Fs) (ts : String) (oc : RotateOutcome) :
    (rotate l fs ts oc).fs.Extends fs := by
  have h1 : (match l.file with | some h => fs.closeHandle h | none => fs).Extends fs := by
    cases hf : l.file <;> simp only [hf]
    · exact extends_refl fs
    · exact extends_closeHandle fs _
  have h2 : (if ((match l.file with | some h => fs.closeHandle h | none => fs).lookup
        l.filePath).isSome && !oc.renameErr
      then (match l.file with | some h => fs.closeHandle h | none => fs).rename
        l.filePath (l.filePath ++ "." ++ ts ++ ".log")
      else (match l.file with | some h => fs.closeHandle h | none => fs)).Extends fs := by
    split
    · exact extends_trans (extends_rename _ _ _) h1
    · exact h1
  unfold rotate
  dsimp only
  split
  · exact h2
  · exact extends_trans (extends_openFile _ _) h2

theorem extends_write (l : Logger) (fs : Fs) (e : logEntry) (ctx : WriteCtx) :
    (write l fs e ctx).fs.Extends fs := by
  have hwr : (match l.fileWriter with
      | some h => fs.writeLine h (ctx.now ++ ("[" ++ levelString e.level ++ "] " ++ e.msg))
      | none => (fs, false)).1.Extends fs := by
    cases hf : l.fileWriter <;> simp only [hf]
    · exact extends_refl fs
    · exact extends_writeLine _ _ _
  unfold write
  dsimp only
  split
  · exact extends_trans (extends_rotate _ _ _ _) hwr
  · exact hwr

/-! ### Lines written successfully are really in a file, and stay there -/

/-- `fs` holds the line `s` in some file. -/
def Fs.hasLine (fs : Fs) (s : String) : Prop :=
  ∃ f, f ∈ fs.files ∧ s ∈ f.lines

/-- The logger's writer handle points at a file that exists. -/
def WriterValid (l : Logger) (fs : Fs) : Prop :=
  ∀ h, l.fileWriter = some h → ∃ f, f ∈ fs.files ∧ f.fid = h.fid

theorem hasLine_of_extends {fs2 fs : Fs} {s : String} (he : fs2.Extends fs)
    (hs : fs.hasLine s) : fs2.hasLine s := by
  obtain ⟨f, hf, h⟩ := hs
  obtain ⟨f2, hf2, -, hl⟩ := he f hf
  exact ⟨f2, hf2, hl s h⟩

theorem writerValid_of_extends {l : Logger} {fs fs2 : Fs} (hv : WriterValid l fs)
    (he : fs2.Extends fs) : WriterValid l fs2 := by
  intro h hh
  obtain ⟨f, hf, hfid⟩ := hv h hh
  obtain ⟨f2, hf2, hfid2, -⟩ := he f hf
  exact ⟨f2, hf2, hfid2.trans hfid⟩

theorem appendLine_hasLine (fs : Fs) (fid : Nat) (line : String)
    (hex : ∃ f, f ∈ fs.files ∧ f.fid = fid) :
    (fs.appendLine fid line).hasLine line := by
  obtain ⟨f, hf, hfid⟩ := hex
  refine ⟨{ f with lines := f.lines ++ [line] }, ?_,
    List.mem_append_right _ (List.mem_singleton_self _)⟩
  have himg : (fun g => if g.fid = fid then { g with lines := g.lines ++ [line] } else g) f =
      { f with lines := f.lines ++ [line] } := by simp only [hfid, if_pos]
  exact himg ▸ List.mem_map_of_mem _ hf

theorem writerValid_rotate (l : Logger) (fs : Fs) (ts : String) (oc : RotateOutcome)
    (hv : WriterValid l fs) :
    WriterValid (rotate l fs ts oc).logger (rotate l fs ts oc).fs := by
  have h1 : (match l.file with | some h => fs.closeHandle h | none => fs).Extends fs := by
    cases hf : l.file <;> simp only [hf]
    · exact extends_refl fs
    · exact extends_closeHandle fs _
  have h2 : (if ((match l.file with | some h => fs.closeHandle h | none => fs).lookup
        l.filePath).isSome && !oc.renameErr
      then (match l.file with | some h => fs.closeHandle h | none => fs).rename
        l.filePath (l.filePath ++ "." ++ ts ++ ".log")
      else (match l.file with | some h => fs.closeHandle h | none => fs)).Extends fs := by
    split
    · exact extends_trans (extends_rename _ _ _) h1
    · exact h1
  unfold rotate
  dsimp only
  split
  · exact writerValid_of_extends hv h2
  · intro h hh
    simp only at hh
    obtain ⟨f, hlk, hfid⟩ := openFile_spec
      (if ((match l.file with | some h => fs.closeHandle h | none => fs).lookup
            l.filePath).isSome && !oc.renameErr
        then (match l.file with | some h => fs.closeHandle h | none => fs).rename
          l.filePath (l.filePath ++ "." ++ ts ++ ".log")
        else (match l.file with | some h => fs.closeHandle h | none => fs)) l.filePath
    have hmem : f ∈ ((if ((match l.file with | some h => fs.closeHandle h | none => fs).lookup
          l.filePath).isSome && !oc.renameErr
        then (match l.file with | some h => fs.closeHandle h | none => fs).rename
          l.filePath (l.filePath ++ "." ++ ts ++ ".log")
        else (match l.file with | some h => fs.closeHandle h | none => fs)).openFile
          l.filePath).1.files := by
      unfold Fs.lookup at hlk
      exact List.mem_of_find?_eq_some hlk
    cases hh
    exact ⟨f, hmem, hfid⟩

theorem writerValid_write (l : Logger) (fs : Fs) (e : logEntry) (ctx : WriteCtx)
    (hv : WriterValid l fs) :
    WriterValid (write l fs e ctx).logger (write l fs e ctx).fs := by
  have hwr : (match l.fileWriter with
      | some h => fs.writeLine h (ctx.now ++ ("[" ++ levelString e.level ++ "] " ++ e.msg))
      | none => (fs, false)).1.Extends fs := by
    cases hf : l.fileWriter <;> simp only [hf]
    · exact extends_refl fs
    · exact extends_writeLine _ _ _
  unfold write
  dsimp only
  split
  · exact writerValid_rotate _ _ _ _ (writerValid_of_extends hv hwr)
  · exact writerValid_of_extends hv hwr

theorem write_success_hasLine (l : Logger) (fs : Fs) (e : logEntry) (ctx : WriteCtx)
    (hv : WriterValid l fs) (hok : writeOk l fs = true) :
    (write l fs e ctx).fs.hasLine (ctx.now ++ renderLine e) := by
  unfold writeOk at hok
  unfold write renderLine
  dsimp only
  cases hf : l.fileWriter with
  | none => rw [hf] at hok; simp at hok
  | some h =>
      rw [hf] at hok
      have hnc : fs.closedHandles.contains h.hid = false := by
        simpa using hok
      have hadd : (fs.appendLine h.fid
          (ctx.now ++ ("[" ++ levelString e.level ++ "] " ++ e.msg))).hasLine
          (ctx.now ++ ("[" ++ levelString e.level ++ "] " ++ e.msg)) :=
        appendLine_hasLine _ _ _ (hv h hf)
      simp only [hf, Fs.writeLine, hnc, Bool.false_eq_true, if_false]
      split
      · exact hasLine_of_extends (extends_rotate _ _ _ _) hadd
      · exact hadd

theorem write_failure_reported (l : Logger) (fs : Fs) (e : logEntry) (ctx : WriteCtx) :
    (write l fs e ctx).out.stderr.length =
      ((write l fs e ctx).out.fileWrites.filter (fun w => !w.2)).length := by
  obtain ⟨h1, h2, -⟩ := write_out_eq l fs e ctx
  rw [h1, h2]
  cases hok : writeOk l fs <;> simp

theorem extends_drainQueue (es : List logEntry) : ∀ (l : Logger) (fs : Fs) (ctxs : List WriteCtx),
    (drainQueue l fs es ctxs).fs.Extends fs := by
  induction es with
  | nil => intro l fs ctxs; exact extends_refl fs
  | cons e es ih =>
      intro l fs ctxs
      exact extends_trans (ih _ _ _) (extends_write l fs e (ctxs.headD defaultCtx))

theorem drainQueue_spec (es : List logEntry) : ∀ (l : Logger) (fs : Fs) (ctxs : List WriteCtx),
    WriterValid l fs →
    ((drainQueue l fs es ctxs).out.stderr.length =
        ((drainQueue l fs es ctxs).out.fileWrites.filter (fun w => !w.2)).length ∧
      ∀ p ∈ (drainQueue l fs es ctxs).out.fileWrites, p.2 = true →
        (drainQueue l fs es ctxs).fs.hasLine p.1) := by
  induction es with
  | nil =>
      intro l fs ctxs hv
      exact ⟨rfl, by simp [drainQueue, Output.empty]⟩
  | cons e es ih =>
      intro l fs ctxs hv
      obtain ⟨ih1, ih2⟩ := ih (write l fs e (ctxs.headD defaultCtx)).logger
        (write l fs e (ctxs.headD defaultCtx)).fs ctxs.tail
        (writerValid_write l fs e (ctxs.headD defaultCtx) hv)
      constructor
      · simp only [drainQueue, Output.app, List.filter_append, List.length_append]
        rw [write_failure_reported, ih1]
      · intro p hp hpt
        simp only [drainQueue, Output.app, List.mem_append] at hp
        rcases hp with hp1 | hp2
        · rw [(write_out_eq l fs e (ctxs.headD defaultCtx)).1] at hp1
          simp only [List.mem_singleton] at hp1
          subst hp1
          simp only at hpt
          exact hasLine_of_extends (extends_drainQueue es _ _ ctxs.tail)
            (write_success_hasLine l fs e (ctxs.headD defaultCtx) hv hpt)
        · exact ih2 p hp2 hpt

theorem Close_started_spec (l : Logger) (fs : Fs) (ctxs : List WriteCtx)
    (hw : l.workerStarted = true) :
    (Close l fs ctxs).out = (drainQueue l fs l.logChan ctxs).out ∧
    (Close l fs ctxs).logger = { (drainQueue l fs l.logChan ctxs).logger with logChan := [] } ∧
    (Close l fs ctxs).fs.files = (drainQueue l fs l.logChan ctxs).fs.files ∧
    (∀ h, (drainQueue l fs l.logChan ctxs).logger.file = some h →
      (Close l fs ctxs).fs.closedHandles.contains h.hid = true) := by
  unfold Close
  simp only [hw, if_true]
  refine ⟨by trivial, by trivial, ?_, ?_⟩
  · rcases hx : (drainQueue l fs l.logChan ctxs).logger.file with - | h2 <;> simp only [hx] <;> rfl
  · intro h hh
    rw [hh]
    simp [Fs.closeHandle]

/-- C3: with the worker started, `Close` drains the whole queue before the
file handle is closed: exactly one file-write attempt per accepted queued
entry; every failed attempt is reported on the diagnostic stream (one report
per failure); every successful attempt's line is persisted in a file of the
final filesystem; the queue is empty when `Close` returns, and the active
handle is closed in the final state, after the drain. -/
theorem c3_drain_on_close (l : Logger) (fs : Fs) (ctxs : List WriteCtx)
    (hw : l.workerStarted = true) (hv : WriterValid l fs) :
    (Close l fs ctxs).out.fileWrites.length = l.logChan.length ∧
    (Close l fs ctxs).out.stderr.length =
      ((Close l fs ctxs).out.fileWrites.filter (fun w => !w.2)).length ∧
    (∀ p ∈ (Close l fs ctxs).out.fileWrites, p.2 = true → (Close l fs ctxs).fs.hasLine p.1) ∧
    (Close l fs ctxs).logger.logChan = [] ∧
    (∀ h, (Close l fs ctxs).logger.file = some h →
      (Close l fs ctxs).fs.closedHandles.contains h.hid = true) := by
  obtain ⟨ho, hl, hf, hc⟩ := Close_started_spec l fs ctxs hw
  obtain ⟨hrep, hpers⟩ := drainQueue_spec l.logChan l fs ctxs hv
  refine ⟨?_, ?_, ?_, ?_, ?_⟩
  · rw [ho, drainQueue_length]
  · rw [ho, hrep]
  · intro p hp hpt
    rw [ho] at hp
    obtain ⟨f, hfm, hfl⟩ := hpers p hp hpt
    exact ⟨f, hf ▸ hfm, hfl⟩
  · rw [hl]
  · intro h hh
    rw [hl] at hh
    exact hc h hh

/-- C3 witness: two queued entries are both written by `Close` and the queue
is empty afterwards. -/
theorem c3_drain_on_close_witness :
    (Close { lBase with logChan := [⟨INFO, "a", 0⟩, ⟨ERROR, "b", 1⟩] } fsBase []).out.fileWrites.length = 2 ∧
    (Close { lBase with logChan := [⟨INFO, "a", 0⟩, ⟨ERROR, "b", 1⟩] } fsBase []).logger.logChan = [] := by
  have h := c3_drain_on_close { lBase with logChan := [⟨INFO, "a", 0⟩, ⟨ERROR, "b", 1⟩] }
    fsBase [] rfl (by
      intro h hh
      have h2 : some hBase = some h := hh
      cases h2
      exact ⟨⟨0, "app.log", []⟩, by simp [fsBase], rfl⟩)
  refine ⟨?_, h.2.2.2.1⟩
  rw [h.1]
  rfl

/-- FIFO order of the persisted lines predicted from the queued entries: each
accepted entry contributes its rendered line, first accepted first. -/
def expectedLines : List logEntry → List WriteCtx → List String
  | [], _ => []
  | e :: es, ctxs => ((ctxs.headD defaultCtx).now ++ renderLine e) :: expectedLines es ctxs.tail

theorem drainQueue_lines (es : List logEntry) : ∀ (l : Logger) (fs : Fs) (ctxs : List WriteCtx),
    (drainQueue l fs es ctxs).out.fileWrites.map Prod.fst = expectedLines es ctxs := by
  induction es with
  | nil => intro l fs ctxs; rfl
  | cons e es ih =>
      intro l fs ctxs
      simp only [drainQueue, Output.app, List.map_append, expectedLines,
        (write_out_eq l fs e (ctxs.headD defaultCtx)).1, ih]
      simp

/-- C5: the sequence of file-write attempts produced by draining the queue is
exactly the accepted entries' rendered lines in acceptance order — the single
sequential consumer writes them one at a time, never reordered. -/
theorem c5_fifo_order (l : Logger) (fs : Fs) (ctxs : List WriteCtx)
    (hw : l.workerStarted = true) :
    (Close l fs ctxs).out.fileWrites.map Prod.fst = expectedLines l.logChan ctxs := by
  rw [(Close_started_spec l fs ctxs hw).1, drainQueue_lines]

/-- C5 witness: two queued entries come out in submission order. -/
theorem c5_fifo_order_witness :
    (Close { lBase with logChan := [⟨INFO, "a", 0⟩, ⟨ERROR, "b", 1⟩] } fsBase
        [⟨"T1 ", "ts", ⟨false, false, false⟩⟩, ⟨"T2 ", "ts", ⟨false, false, false⟩⟩]).out.fileWrites.map
      Prod.fst = ["T1 [INFO] a", "T2 [ERROR] b"] := by
  rw [c5_fifo_order { lBase with logChan := [⟨INFO, "a", 0⟩, ⟨ERROR, "b", 1⟩] } fsBase
    [⟨"T1 ", "ts", ⟨false, false, false⟩⟩, ⟨"T2 ", "ts", ⟨false, false, false⟩⟩] rfl]
  decide

/-! ### Path-resolution lemmas for the rotation claims -/

theorem find?_path_spec {fs : Fs} {p : String} {f : FsFile} (h : fs.lookup p = some f) :
    f ∈ fs.files ∧ f.path = p := by
  unfold Fs.lookup at h
  refine ⟨List.mem_of_find?_eq_some h, ?_⟩
  have := List.find?_some h
  simpa using this

theorem lookup_appendLine (fs : Fs) (fid : Nat) (line : String) (p : String) :
    (fs.appendLine fid line).lookup p =
      (fs.lookup p).map
        (fun f => if f.fid = fid then { f with lines := f.lines ++ [line] } else f) := by
  unfold Fs.appendLine Fs.lookup
  induction fs.files with
  | nil => rfl
  | cons f fsl ih =>
      have hpath : (if f.fid = fid then { f with lines := f.lines ++ [line] } else f).path
          = f.path := by split <;> rfl
      simp only [List.map_cons]
      by_cases hp : f.path = p
      · rw [List.find?_cons_of_pos _ (by rw [hpath]; simp [hp]),
          List.find?_cons_of_pos _ (by simp [hp])]
        rfl
      · rw [List.find?_cons_of_neg _ (by rw [hpath]; simp [hp]),
          List.find?_cons_of_neg _ (by simp [hp])]
        exact ih

theorem lookup_rename_src (fs : Fs) (src dst : String) (hne : dst ≠ src) :
    (fs.rename src dst).lookup src = none := by
  unfold Fs.rename Fs.lookup
  rw [List.find?_eq_none]
  intro f hf
  obtain ⟨g, hg, hgf⟩ := List.mem_map.mp hf
  subst hgf
  by_cases hp : g.path = src <;> simp [hp, hne]

theorem newPath_ne (fp ts : String) : fp ++ "." ++ ts ++ ".log" ≠ fp := by
  intro h
  have hlen := congrArg String.length h
  have h1 : (".log" : String).length = 4 := rfl
  have h2 : ("." : String).length = 1 := rfl
  simp only [String.length_append, h1, h2] at hlen
  omega

theorem lookup_closeHandle (fs : Fs) (h : Handle) (p : String) :
    (fs.closeHandle h).lookup p = fs.lookup p := rfl

theorem rotate_success_spec (l : Logger) (fs : Fs) (ts : String) (oc : RotateOutcome)
    (h : Handle) (f0 : FsFile)
    (hfl : l.file = some h)
    (hlk : fs.lookup l.filePath = some f0)
    (hor : oc.renameErr = false) (hoo : oc.openErr = false) :
    (rotate l fs ts oc).err = none ∧
    (rotate l fs ts oc).logger.currentSize = 0 ∧
    (∃ h2, (rotate l fs ts oc).logger.file = some h2 ∧
      (rotate l fs ts oc).logger.fileWriter = some h2 ∧ h2.fid = fs.nextId) ∧
    (rotate l fs ts oc).fs.lookup l.filePath = some ⟨fs.nextId, l.filePath, []⟩ ∧
    { f0 with path := l.filePath ++ "." ++ ts ++ ".log" } ∈ (rotate l fs ts oc).fs.files := by
  have hne := newPath_ne l.filePath ts
  obtain ⟨hmem0, hpath0⟩ := find?_path_spec hlk
  have hlk1 : ((fs.closeHandle h).lookup l.filePath).isSome = true := by
    rw [lookup_closeHandle, hlk]; rfl
  have hlkr : ((fs.closeHandle h).rename l.filePath (l.filePath ++ "." ++ ts ++ ".log")).lookup
      l.filePath = none :=
    lookup_rename_src (fs.closeHandle h) l.filePath (l.filePath ++ "." ++ ts ++ ".log") hne
  unfold rotate
  simp only [hfl, hoo, hor, Bool.not_false, Bool.and_true, hlk1, if_true,
    Bool.false_eq_true, if_false, Fs.openFile, hlkr]
  refine ⟨by trivial, by trivial, ⟨_, by trivial, by trivial, by trivial⟩, ?_, ?_⟩
  · unfold Fs.lookup
    rw [List.find?_append]
    unfold Fs.lookup at hlkr
    rw [hlkr, List.find?_cons_of_pos _ (by simp)]
    rfl
  · refine List.mem_append_left _ ?_
    have himg : (fun f => if f.path = l.filePath
          then { f with path := l.filePath ++ "." ++ ts ++ ".log" } else f) f0 =
        { f0 with path := l.filePath ++ "." ++ ts ++ ".log" } := by
      simp only [hpath0, if_pos]
    exact himg ▸ List.mem_map_of_mem _ hmem0

/-- C2: when the byte counter (each line adding its rendered length plus one)
reaches or exceeds the threshold `maxSize` at a dispatched entry, that entry's
`write` rotates before anything further is written: the active file — with all
its content, including the line just written — is renamed to
`<path>.<timestamp>.log` and is no longer what the configured path resolves
to; a fresh, empty file with a new identity is opened at the configured path
and installed as the target; and the byte counter is reset to 0 at exactly
that re-open (the successful rotation is the sole rotation event of the
write). -/
theorem c2_rotation_trigger (l : Logger) (fs : Fs) (e : logEntry) (ctx : WriteCtx)
    (h : Handle) (f0 : FsFile)
    (hfl : l.file = some h) (hfw : l.fileWriter = some h)
    (hopen : fs.closedHandles.contains h.hid = false)
    (hlk : fs.lookup l.filePath = some f0) (hfid : f0.fid = h.fid)
    (hlt : h.fid < fs.nextId)
    (hoo : ctx.rotOutcome.openErr = false) (hor : ctx.rotOutcome.renameErr = false)
    (htrig : l.maxSize ≤ l.currentSize + ((renderLine e).utf8ByteSize + 1)) :
    (write l fs e ctx).logger.currentSize = 0 ∧
    (∃ h2, (write l fs e ctx).logger.file = some h2 ∧
      (write l fs e ctx).logger.fileWriter = some h2 ∧ h2.fid ≠ h.fid) ∧
    (write l fs e ctx).fs.lookup l.filePath = some ⟨fs.nextId, l.filePath, []⟩ ∧
    { f0 with
      path := l.filePath ++ "." ++ ctx.rotTimestamp ++ ".log",
      lines := f0.lines ++ [ctx.now ++ renderLine e] } ∈ (write l fs e ctx).fs.files ∧
    (write l fs e ctx).out.rotations = [true] := by
  simp only [renderLine] at htrig
  have hlkA : (fs.appendLine h.fid
      (ctx.now ++ ("[" ++ levelString e.level ++ "] " ++ e.msg))).lookup l.filePath =
      some { f0 with lines := f0.lines ++ [ctx.now ++ ("[" ++ levelString e.level ++ "] " ++ e.msg)] } := by
    rw [lookup_appendLine, hlk]
    dsimp only [Option.map]
    rw [if_pos hfid]
  unfold write renderLine
  simp only [hfw, Fs.writeLine, hopen, Bool.false_eq_true, if_false]
  rw [if_pos (by omega)]
  obtain ⟨herr, hcs, ⟨h2, hf2, hw2, hfid2⟩, hlk2, hmem2⟩ :=
    rotate_success_spec { l with fileWriter := some h, currentSize :=
        l.currentSize + ((("[" ++ levelString e.level ++ "] " ++ e.msg).utf8ByteSize : Int) + 1) }
      (fs.appendLine h.fid (ctx.now ++ ("[" ++ levelString e.level ++ "] " ++ e.msg)))
      ctx.rotTimestamp ctx.rotOutcome h
      { f0 with lines := f0.lines ++ [ctx.now ++ ("[" ++ levelString e.level ++ "] " ++ e.msg)] }
      hfl hlkA hor hoo
  refine ⟨hcs, ⟨h2, hf2, hw2, ?_⟩, hlk2, hmem2, ?_⟩
  · rw [hfid2]
    exact fun hc => absurd hc.symm (Nat.ne_of_lt hlt)
  · simp only [herr]
    rfl

/-- C2 witness: threshold 10 is reached by the single 9-byte line
`"[INFO] hi"` plus one; the old file retires with the line, a fresh empty
file sits at the path, and the counter is 0. -/
theorem c2_rotation_trigger_witness :
    (write { lBase with maxSize := 10 } fsBase ⟨INFO, "hi", 0⟩
        ⟨"T ", "20250101_000000", ⟨false, false, false⟩⟩).logger.currentSize = 0 ∧
    (write { lBase with maxSize := 10 } fsBase ⟨INFO, "hi", 0⟩
        ⟨"T ", "20250101_000000", ⟨false, false, false⟩⟩).fs.lookup "app.log" =
      some ⟨2, "app.log", []⟩ ∧
    (⟨0, "app.log.20250101_000000.log", ["T [INFO] hi"]⟩ : FsFile) ∈
      (write { lBase with maxSize := 10 } fsBase ⟨INFO, "hi", 0⟩
        ⟨"T ", "20250101_000000", ⟨false, false, false⟩⟩).fs.files := by
  have h := c2_rotation_trigger { lBase with maxSize := 10 } fsBase ⟨INFO, "hi", 0⟩
    ⟨"T ", "20250101_000000", ⟨false, false, false⟩⟩ hBase ⟨0, "app.log", []⟩
    rfl rfl rfl rfl rfl (by decide) rfl rfl (by decide)
  exact ⟨h.1, h.2.2.1, h.2.2.2.1⟩

/-! ### A failed in-dispatch rotation and the wedged state it leaves -/

theorem rotate_open_failure_spec (l : Logger) (fs : Fs) (ts : String) (oc : RotateOutcome)
    (hoo : oc.openErr = true) :
    (rotate l fs ts oc).logger = l ∧
    (rotate l fs ts oc).err = some "open error" ∧
    (∀ h, l.file = some h → (rotate l fs ts oc).fs.closedHandles.contains h.hid = true) := by
  unfold rotate
  simp only [hoo, if_true]
  refine ⟨by trivial, by trivial, ?_⟩
  intro h hh
  simp only [hh]
  split
  · simp [Fs.rename, Fs.closeHandle]
  · simp [Fs.closeHandle]

theorem rotate_closedHandles (l : Logger) (fs : Fs) (ts : String) (oc : RotateOutcome) :
    (rotate l fs ts oc).fs.closedHandles =
      (match l.file with
        | some h => h.hid :: fs.closedHandles
        | none => fs.closedHandles) := by
  unfold rotate Fs.openFile Fs.rename Fs.closeHandle
  cases hf : l.file <;> simp only [hf] <;> repeat' split
  all_goals rfl

theorem closedHandles_mono_rotate (l : Logger) (fs : Fs) (ts : String) (oc : RotateOutcome)
    (n : Nat) (hc : fs.closedHandles.contains n = true) :
    (rotate l fs ts oc).fs.closedHandles.contains n = true := by
  rw [rotate_closedHandles]
  have hc2 : n ∈ fs.closedHandles := by simpa using hc
  cases hf : l.file <;> simp [hf, hc2]

/-- The state left behind when an in-dispatch rotation's re-open fails: the
writer still targets the (now closed) previous handle and the byte counter
sits at or above the threshold. -/
def Wedged (l : Logger) (fs : Fs) : Prop :=
  ∃ h, l.fileWriter = some h ∧ fs.closedHandles.contains h.hid = true ∧
    l.maxSize ≤ l.currentSize

theorem writeOk_of_wedged {l : Logger} {fs : Fs} (hw : Wedged l fs) :
    writeOk l fs = false := by
  obtain ⟨h, hfw, hc, -⟩ := hw
  have hc2 : h.hid ∈ fs.closedHandles := by simpa using hc
  unfold writeOk
  rw [hfw]
  simp [hc2]

theorem write_rotations_of_trigger (l : Logger) (fs : Fs) (e : logEntry) (ctx : WriteCtx)
    (htrig : l.maxSize ≤ l.currentSize + ((renderLine e).utf8ByteSize + 1)) :
    (write l fs e ctx).out.rotations.length = 1 := by
  simp only [renderLine] at htrig
  unfold write
  dsimp only
  rw [if_pos (by omega)]
  rfl

theorem write_failed_rotation_eq (l : Logger) (fs : Fs) (e : logEntry) (ctx : WriteCtx)
    (h : Handle) (hfl : l.file = some h)
    (htrig : l.maxSize ≤ l.currentSize + ((renderLine e).utf8ByteSize + 1))
    (hoo : ctx.rotOutcome.openErr = true) :
    (write l fs e ctx).logger =
      { l with currentSize := l.currentSize + ((renderLine e).utf8ByteSize + 1) } ∧
    (write l fs e ctx).out.rotations = [false] ∧
    (write l fs e ctx).fs.closedHandles.contains h.hid = true := by
  simp only [renderLine] at htrig ⊢
  unfold write
  dsimp only
  rw [if_pos (by omega)]
  obtain ⟨hlog, herr, hcont⟩ := rotate_open_failure_spec
    { l with currentSize :=
        l.currentSize + ((("[" ++ levelString e.level ++ "] " ++ e.msg).utf8ByteSize : Int) + 1) }
    (match l.fileWriter with
      | some h => fs.writeLine h (ctx.now ++ ("[" ++ levelString e.level ++ "] " ++ e.msg))
      | none => (fs, false)).1
    ctx.rotTimestamp ctx.rotOutcome hoo
  exact ⟨hlog, by rw [herr]; rfl, hcont h hfl⟩

theorem write_wedged_step (l : Logger) (fs : Fs) (e : logEntry) (ctx : WriteCtx)
    (h : Handle) (hfw : l.fileWriter = some h)
    (hc : fs.closedHandles.contains h.hid = true)
    (hms : l.maxSize ≤ l.currentSize) :
    (write l fs e ctx).out.stderr = ["log write error"] ∧
    (write l fs e ctx).out.rotations.length = 1 ∧
    (ctx.rotOutcome.openErr = true →
      (write l fs e ctx).logger.fileWriter = some h ∧
      (write l fs e ctx).fs.closedHandles.contains h.hid = true ∧
      (write l fs e ctx).logger.maxSize ≤ (write l fs e ctx).logger.currentSize) := by
  have hok : writeOk l fs = false := by
    have hc2 : h.hid ∈ fs.closedHandles := by simpa using hc
    unfold writeOk
    rw [hfw]
    simp [hc2]
  refine ⟨?_, ?_, ?_⟩
  · rw [(write_out_eq l fs e ctx).2.1, hok]
    simp
  · exact write_rotations_of_trigger l fs e ctx (by
      have : (0 : Int) ≤ ((renderLine e).utf8ByteSize : Int) := Int.ofNat_nonneg _
      omega)
  · intro hoo
    unfold write
    dsimp only
    simp only [hfw, Fs.writeLine, hc, if_true]
    rw [if_pos (by omega)]
    obtain ⟨hlog, -, -⟩ := rotate_open_failure_spec
      { l with fileWriter := some h, currentSize :=
          l.currentSize + ((("[" ++ levelString e.level ++ "] " ++ e.msg).utf8ByteSize : Int) + 1) }
      fs ctx.rotTimestamp ctx.rotOutcome hoo
    refine ⟨?_, ?_, ?_⟩
    · rw [hlog]
    · exact closedHandles_mono_rotate _ fs _ _ h.hid hc
    · rw [hlog]
      show l.maxSize ≤ l.currentSize + _
      have : (0 : Int) ≤ (("[" ++ levelString e.level ++ "] " ++ e.msg).utf8ByteSize : Int) :=
        Int.ofNat_nonneg _
      omega

/-- C8: when a threshold-triggered rotation inside `write` fails at the
re-open, the error is discarded — stderr reflects only the entry's own write
outcome, never the rotation error; the previous handle is closed in the
filesystem yet both `file` and `fileWriter` still reference it; the byte
counter is incremented, not reset, so it stays at or above the threshold
(the state is `Wedged`); and from any wedged state, every subsequent
dispatched entry's file write fails and is reported, a rotation is attempted
again on that entry, and — while the re-open keeps failing — the state stays
wedged. -/
theorem c8_failed_rotation_wedges (l : Logger) (fs : Fs) (e : logEntry) (ctx : WriteCtx)
    (h : Handle) (hfw : l.fileWriter = some h) (hfl : l.file = some h)
    (htrig : l.maxSize ≤ l.currentSize + ((renderLine e).utf8ByteSize + 1))
    (hoo : ctx.rotOutcome.openErr = true) :
    (write l fs e ctx).out.rotations = [false] ∧
    (write l fs e ctx).out.stderr = (if writeOk l fs then [] else ["log write error"]) ∧
    (write l fs e ctx).logger.fileWriter = some h ∧
    (write l fs e ctx).logger.file = some h ∧
    (write l fs e ctx).fs.closedHandles.contains h.hid = true ∧
    (write l fs e ctx).logger.currentSize =
      l.currentSize + ((renderLine e).utf8ByteSize + 1) ∧
    Wedged (write l fs e ctx).logger (write l fs e ctx).fs ∧
    (∀ (l2 : Logger) (fs2 : Fs), Wedged l2 fs2 → ∀ (e2 : logEntry) (ctx2 : WriteCtx),
      (write l2 fs2 e2 ctx2).out.stderr = ["log write error"] ∧
      (write l2 fs2 e2 ctx2).out.rotations.length = 1 ∧
      (ctx2.rotOutcome.openErr = true →
        Wedged (write l2 fs2 e2 ctx2).logger (write l2 fs2 e2 ctx2).fs)) := by
  obtain ⟨hlog, hrot, hcont⟩ := write_failed_rotation_eq l fs e ctx h hfl htrig hoo
  refine ⟨hrot, (write_out_eq l fs e ctx).2.1, ?_, ?_, hcont, ?_, ?_, ?_⟩
  · rw [hlog]; exact hfw
  · rw [hlog]; exact hfl
  · rw [hlog]
  · exact ⟨h, by rw [hlog]; exact hfw, hcont, by rw [hlog]; exact htrig⟩
  · intro l2 fs2 hw2 e2 ctx2
    obtain ⟨h2, hfw2, hc2, hms2⟩ := hw2
    obtain ⟨s1, s2, s3⟩ := write_wedged_step l2 fs2 e2 ctx2 h2 hfw2 hc2 hms2
    exact ⟨s1, s2, fun hoo2 => (s3 hoo2).elim fun a bc => ⟨h2, a, bc⟩⟩

/-- C8 witness: the first write succeeds (stderr empty — the failed rotation
is not reported), the state is wedged, and the next entry's write fails and
is reported. -/
theorem c8_failed_rotation_wedges_witness :
    (write { lBase with maxSize := 10 } fsBase ⟨INFO, "hi", 0⟩
        ⟨"T ", "ts", ⟨false, false, true⟩⟩).out.rotations = [false] ∧
    (write { lBase with maxSize := 10 } fsBase ⟨INFO, "hi", 0⟩
        ⟨"T ", "ts", ⟨false, false, true⟩⟩).out.stderr = [] ∧
    (write (write { lBase with maxSize := 10 } fsBase ⟨INFO, "hi", 0⟩
          ⟨"T ", "ts", ⟨false, false, true⟩⟩).logger
        (write { lBase with maxSize := 10 } fsBase ⟨INFO, "hi", 0⟩
          ⟨"T ", "ts", ⟨false, false, true⟩⟩).fs
        ⟨INFO, "x", 1⟩ defaultCtx).out.stderr = ["log write error"] := by
  have h := c8_failed_rotation_wedges { lBase with maxSize := 10 } fsBase ⟨INFO, "hi", 0⟩
    ⟨"T ", "ts", ⟨false, false, true⟩⟩ hBase rfl rfl (by decide) rfl
  refine ⟨h.1, ?_, ?_⟩
  · rw [h.2.1]
    decide
  · exact (h.2.2.2.2.2.2.2 _ _ h.2.2.2.2.2.2.1 ⟨INFO, "x", 1⟩ defaultCtx).1

end Logx
